import Mathlib

/-!
Verification of the `ai_write_helper` core services against their
natural-language specification.

Python strings are embedded as `List Char` (`PyStr`).  The document store
(`services/document.py`), the generation client (`services/api.py`) and the
trigger monitor (`services/monitor.py`) are embedded as pure Lean functions;
stateful code becomes explicit state passing, fallible code returns `Option`.
-/

/-- A Python string, embedded as its character sequence. -/
abbrev PyStr := List Char

/-- The whitespace characters stripped by Python's `str.strip()`
(restricted to the ASCII whitespace set). -/
def isPySpace (c : Char) : Bool :=
  c == ' ' || c == '\t' || c == '\n' || c == '\r' ||
  c == Char.ofNat 11 || c == Char.ofNat 12

/-- Python `str.strip()`: drop whitespace from both ends. -/
def pyStrip (s : PyStr) : PyStr :=
  ((s.dropWhile isPySpace).reverse.dropWhile isPySpace).reverse

/-- The head of `dropWhile p l`, when it exists, does not satisfy `p`. -/
theorem head_dropWhile_not {p : Char → Bool} {l : List Char} {c : Char} {t : List Char}
    (h : l.dropWhile p = c :: t) : p c = false := by
  induction l with
  | nil => simp [List.dropWhile] at h
  | cons a l ih =>
    rw [List.dropWhile] at h
    by_cases hp : p a
    · rw [hp] at h
      simp at h
      exact ih h
    · simp [hp] at h
      rw [← h.1]
      exact Bool.of_not_eq_true hp

/-- A stripped string never ends with a whitespace character. -/
theorem pyStrip_getLast_not_space {s : PyStr} {c : Char}
    (h : (pyStrip s).getLast? = some c) : isPySpace c = false := by
  unfold pyStrip at h
  rw [List.getLast?_reverse] at h
  cases hd : ((s.dropWhile isPySpace).reverse.dropWhile isPySpace) with
  | nil => rw [hd] at h; simp at h
  | cons a t =>
    rw [hd] at h
    simp at h
    rw [← h]
    exact head_dropWhile_not hd

/-- In particular a stripped string never ends with a newline. -/
theorem pyStrip_not_endsWith_nl (s : PyStr) :
    (pyStrip s).getLast? ≠ some '\n' := by
  intro h
  have := pyStrip_getLast_not_space h
  simp [isPySpace] at this

/-! ### Document store (`services/document.py`) -/

/-- The on-disk state of one file, abstracting its raw bytes:
`size` is the byte length on disk (`os.path.getsize`; zero iff the file is
empty), `content` is the text recovered by the first successful encoding of
`['utf-8', 'gbk', 'latin-1']`, `decodable` records whether any of those
encodings succeeds (`_read_text_file` raises otherwise), `isZip` records
whether the leading bytes are the `PK\x03\x04` zip signature, and `docxText`
is the text `_read_docx_file`/`_extract_docx_text` recovers from the
container (`[]` both for an empty document and when extraction fails, since
`_extract_docx_text` returns `""` on any failure). -/
structure PyFile where
  size : Nat
  content : PyStr
  decodable : Bool
  isZip : Bool
  docxText : PyStr
deriving DecidableEq

/-- The file system visible to `DocumentService`: the file map plus the
outcome of `validate_path` (directory existence and access permissions). -/
structure FS where
  files : PyStr → Option PyFile
  writable : PyStr → Bool

/-- `os.path.basename`: the part of the path after the last `/`. -/
def basenameOf (p : PyStr) : PyStr :=
  (p.reverse.takeWhile (fun c => c != '/')).reverse

/-- `os.path.splitext(...)[1].lower()`: the lowercased extension of the
path's basename, from its last dot; leading dots of the basename do not
start an extension. -/
def extOf (p : PyStr) : PyStr :=
  let stem := (basenameOf p).dropWhile (fun c => c == '.')
  if stem.contains '.' then
    ('.' :: (stem.reverse.takeWhile (fun c => c != '.')).reverse).map Char.toLower
  else []

/-- `DocumentService._read_text_file`: returns the decoded content, or
raises (`none`) when every encoding fails. -/
def read_text_file (f : PyFile) : Option PyStr :=
  if f.decodable then some f.content else none

/-- `DocumentService.read_document`: validate the path, reject empty files,
then dispatch on the extension; every failure path (invalid path, missing
file so `os.path.getsize` raises, decode failure) is caught and yields `""`.
The function is total by construction, mirroring the outer `try/except`. -/
def read_document (fs : FS) (path : PyStr) : PyStr :=
  if fs.writable path = false then []
  else
    match fs.files path with
    | none => []
    | some f =>
      if f.size = 0 then []
      else
        let ext := extOf path
        if ext = ".txt".data ∨ ext = ".md".data then (read_text_file f).getD []
        else if ext = ".docx".data then
          if f.isZip = false then (read_text_file f).getD []
          else f.docxText
        else (read_text_file f).getD []

/-- A freshly written text file: encoded as UTF-8 (hence decodable), not a
zip container, no recoverable docx text. -/
def mkTextFile (c : PyStr) : PyFile :=
  { size := c.length, content := c, decodable := true, isZip := false, docxText := [] }

/-- The blank-line separator written between the existing content and the new
content in incremental mode: nothing when either side is empty, one newline
when the existing content already ends with `'\n'`, two otherwise. -/
def incrementalSep (existing content : PyStr) : PyStr :=
  if existing ≠ [] ∧ content ≠ [] then
    (if existing.getLast? = some '\n' then ['\n'] else ['\n', '\n'])
  else []

/-- The file system after an incremental text write whose staged content is
the existing content, the separator, then the (already stripped) new
content. -/
def incrementalResult (fs : FS) (path existing content : PyStr) : FS :=
  { fs with files := fun p =>
      (if p = path then some (mkTextFile (existing ++ incrementalSep existing content ++ content))
       else fs.files p) }

/-- Net effect of `DocumentService._write_text_file` (staging plus
`_atomic_replace`) on the file map.  The content is stripped first
(`content = content.strip()`).  Overwrite mode stages the stripped content;
incremental mode reads the existing content (raising, i.e. `none`, when the
existing file decodes under no supported encoding; `""` when the target does
not exist yet), then stages existing content, separator, new content. -/
def write_text_file (fs : FS) (path : PyStr) (content0 : PyStr) (incremental : Bool) :
    Option FS :=
  let content := pyStrip content0
  if incremental = false then
    some { fs with files := fun p => if p = path then some (mkTextFile content) else fs.files p }
  else
    match fs.files path with
    | none => some (incrementalResult fs path [] content)
    | some f =>
      if f.decodable then some (incrementalResult fs path f.content content) else none

/-- `DocumentService.write_document`: raises (`none`) on an invalid path,
then dispatches on the extension; `.txt`, `.md` and every unrecognized
extension go through `_write_text_file`.  The `.docx` branch
(`_write_docx_file`, which needs the python-docx container model) is not
embedded; no theorem below touches it. -/
def write_document (fs : FS) (path : PyStr) (content : PyStr) (incremental : Bool) :
    Option FS :=
  if fs.writable path = false then none
  else if extOf path = ".docx".data then none
  else write_text_file fs path content incremental

/-- Reading a text-extension file that is valid, non-empty and decodable
yields its decoded content. -/
theorem read_document_text_file (fs : FS) (path : PyStr) (f : PyFile)
    (hw : fs.writable path = true)
    (hf : fs.files path = some f)
    (hext : extOf path = ".txt".data ∨ extOf path = ".md".data)
    (hd : f.decodable = true) (hs : f.size ≠ 0) :
    read_document fs path = f.content := by
  unfold read_document
  rw [hw, hf]
  simp [hs, if_pos hext, read_text_file, hd]

/-- Reading a zero-length file yields the empty string. -/
theorem read_document_size_zero (fs : FS) (path : PyStr) (f : PyFile)
    (hf : fs.files path = some f) (hs : f.size = 0) :
    read_document fs path = [] := by
  unfold read_document
  by_cases hw : fs.writable path = false
  · rw [hw]; simp
  · simp only [Bool.not_eq_false] at hw
    rw [hw, hf]
    simp [hs]

/-- The file map produced by an overwrite-mode text write. -/
theorem write_document_overwrite (fs : FS) (path c : PyStr) (fs2 : FS)
    (hw : fs.writable path = true) (hdocx : extOf path ≠ ".docx".data)
    (h : write_document fs path c false = some fs2) :
    fs2 = { fs with files := fun p =>
      if p = path then some (mkTextFile (pyStrip c)) else fs.files p } := by
  unfold write_document write_text_file at h
  rw [hw, if_neg (by simp), if_neg hdocx, if_pos rfl] at h
  exact (Option.some_inj.mp h).symm

/-- The file map produced by an incremental-mode text write onto an existing
decodable file whose content does not end in a newline: the blank-line
separator is exactly two newlines. -/
theorem write_document_incremental (fs : FS) (path c : PyStr) (fs2 : FS) (f : PyFile)
    (hw : fs.writable path = true) (hdocx : extOf path ≠ ".docx".data)
    (hf : fs.files path = some f) (hd : f.decodable = true)
    (hne : f.content ≠ []) (hcne : pyStrip c ≠ [])
    (hnl : f.content.getLast? ≠ some '\n')
    (h : write_document fs path c true = some fs2) :
    fs2 = { fs with files := fun p =>
      (if p = path then some (mkTextFile (f.content ++ '\n' :: '\n' :: pyStrip c))
       else fs.files p) } := by
  have hsep : incrementalSep f.content (pyStrip c) = ['\n', '\n'] := by
    unfold incrementalSep
    rw [if_pos ⟨hne, hcne⟩, if_neg hnl]
  unfold write_document write_text_file at h
  rw [hw, if_neg (by simp), if_neg hdocx, hf] at h
  have h1 : (if f.decodable = true then some (incrementalResult fs path f.content (pyStrip c))
      else none) = some fs2 := h
  rw [if_pos hd] at h1
  have h2 := (Option.some_inj.mp h1).symm
  rw [h2]
  unfold incrementalResult
  rw [hsep]
  simp [List.append_assoc]

/-- An example file system: no files yet, every path writable. -/
def fs0 : FS := { files := fun _ => none, writable := fun _ => true }

/-- An example text-document path. -/
def p1 : PyStr := "d/f.txt".data

/-- C1: the claimed write/read round-trip identity fails, because
`_write_text_file` strips the content before staging it: writing `" a"` and
reading back yields `"a"`, not `" a"`. -/
theorem write_read_not_identity :
    (write_document fs0 p1 " a".data false).isSome = true ∧
    read_document ((write_document fs0 p1 " a".data false).getD fs0) p1 = "a".data ∧
    " a".data ≠ "a".data := by
  refine ⟨by decide, by decide, by decide⟩

/-- C1 (amended): for every `.txt`/`.md` path and every content, a
successful `write(path, content, Overwrite)` followed by `read(path)`
returns exactly `content.strip()`. -/
theorem write_read_roundtrip (fs : FS) (path c : PyStr) (fs2 : FS)
    (hext : extOf path = ".txt".data ∨ extOf path = ".md".data)
    (hw : fs.writable path = true)
    (h : write_document fs path c false = some fs2) :
    read_document fs2 path = pyStrip c := by
  have hdocx : extOf path ≠ ".docx".data := by
    rcases hext with hx | hx <;> rw [hx] <;> decide
  have e1 := write_document_overwrite fs path c fs2 hw hdocx h
  subst e1
  by_cases hz : (pyStrip c).length = 0
  · rw [List.length_eq_zero] at hz
    rw [read_document_size_zero _ path (mkTextFile (pyStrip c)) (by simp) (by simp [mkTextFile, hz])]
    exact hz.symm
  · exact read_document_text_file _ path (mkTextFile (pyStrip c)) hw (by simp) hext rfl
      (by simpa [mkTextFile] using hz)

/-- Witness for `write_read_roundtrip` at a concrete input. -/
theorem write_read_roundtrip_witness :
    read_document ((write_document fs0 p1 "hi".data false).getD fs0) p1 = pyStrip "hi".data :=
  write_read_roundtrip fs0 p1 "hi".data _ (by decide) (by decide) rfl

/-- C5: the claimed overwrite-then-incremental result `c1 ++ "\n\n" ++ c2`
fails for `c1 = "a "`: the stored text is `"a\n\nb"`, not `"a \n\nb"`,
because each write strips its content first. -/
theorem overwrite_incremental_not_plain_concat :
    read_document ((write_document ((write_document fs0 p1 "a ".data false).getD fs0)
        p1 "b".data true).getD fs0) p1 = "a\n\nb".data ∧
    "a\n\nb".data ≠ "a \n\nb".data := by
  refine ⟨by decide, by decide⟩

/-- C5 (amended): for every `.txt`/`.md` path and contents whose stripped
forms are non-empty, `write(path, c1, Overwrite)`, `write(path, c2,
Incremental)`, `read(path)` returns
`c1.strip() ++ "\n\n" ++ c2.strip()`. -/
theorem overwrite_then_incremental_read (fs : FS) (path c1 c2 : PyStr) (fs1 fs2 : FS)
    (hext : extOf path = ".txt".data ∨ extOf path = ".md".data)
    (hw : fs.writable path = true)
    (h1 : write_document fs path c1 false = some fs1)
    (h2 : write_document fs1 path c2 true = some fs2)
    (hc1 : pyStrip c1 ≠ []) (hc2 : pyStrip c2 ≠ []) :
    read_document fs2 path = pyStrip c1 ++ '\n' :: '\n' :: pyStrip c2 := by
  have hdocx : extOf path ≠ ".docx".data := by
    rcases hext with hx | hx <;> rw [hx] <;> decide
  have e1 := write_document_overwrite fs path c1 fs1 hw hdocx h1
  subst e1
  have e2 := write_document_incremental
    ({ fs with files := fun p => if p = path then some (mkTextFile (pyStrip c1)) else fs.files p })
    path c2 fs2 (mkTextFile (pyStrip c1))
    hw hdocx (by simp) rfl hc1 hc2 (pyStrip_not_endsWith_nl c1) h2
  subst e2
  exact read_document_text_file _ path
    (mkTextFile ((mkTextFile (pyStrip c1)).content ++ '\n' :: '\n' :: pyStrip c2))
    hw (by simp) hext rfl (by simp [mkTextFile, List.length_append])

/-- Witness for `overwrite_then_incremental_read` at a concrete input. -/
theorem overwrite_then_incremental_read_witness :
    read_document ((write_document ((write_document fs0 p1 "x".data false).getD fs0)
        p1 "y".data true).getD fs0) p1 = pyStrip "x".data ++ '\n' :: '\n' :: pyStrip "y".data :=
  overwrite_then_incremental_read fs0 p1 "x".data "y".data _ _
    (by decide) (by decide) rfl rfl (by decide) (by decide)

/-! ### Atomicity of the text write (`_write_text_file` / `_atomic_replace`) -/

/-- One primitive file-system step of a text write, covering every branch of
`_atomic_replace` (document.py:408-447): `stageTemp c` writes, flushes and
fsyncs the colocated temporary file (`tempfile.mktemp` path); `replaceStep`
is `os.replace(temp, target)` — the atomic rename taken when
`os.name != 'nt'`; `removeTarget` and `moveStep` are the Windows branch's
`os.remove(target)` followed by `shutil.move(temp, target)`; `copyByte i`
is the non-atomic `shutil.copy2(temp, target)` fallback (taken when the
replace raises) having transferred the first `i + 1` characters of the
source into the target; and `cleanupTemp` is the `finally` block's
`os.unlink` of the temporary file. -/
inductive WriteStep
  | stageTemp (c : PyStr)
  | replaceStep
  | removeTarget
  | moveStep
  | copyByte (i : Nat)
  | cleanupTemp

/-- Raw file contents by path (`none` = the path does not exist). -/
def FileMap := PyStr → Option PyStr

def applyWriteStep (temp target : PyStr) (m : FileMap) : WriteStep → FileMap
  | .stageTemp c => fun p => if p = temp then some c else m p
  | .replaceStep => fun p => if p = target then m temp else if p = temp then none else m p
  | .removeTarget => fun p => if p = target then none else m p
  | .moveStep => fun p => if p = target then m temp else if p = temp then none else m p
  | .copyByte i => fun p => if p = target then some (((m temp).getD []).take (i + 1)) else m p
  | .cleanupTemp => fun p => if p = temp then none else m p

def applyWriteSteps (temp target : PyStr) (m : FileMap) (steps : List WriteStep) : FileMap :=
  steps.foldl (applyWriteStep temp target) m

/-- The step sequence of one text write on the atomic-rename branch of
`_atomic_replace` (`os.name != 'nt'`, no exception), `staged` being the
full temporary file content: the stripped new content in overwrite mode, or
existing content ++ separator ++ stripped new content in incremental
mode. -/
def writeTextStepsPosix (staged : PyStr) : List WriteStep :=
  [.stageTemp staged, .replaceStep, .cleanupTemp]

/-- The step sequence on the Windows branch of `_atomic_replace`
(`os.name == 'nt'`, target exists): the target is deleted before the
move. -/
def writeTextStepsWindows (staged : PyStr) : List WriteStep :=
  [.stageTemp staged, .removeTarget, .moveStep, .cleanupTemp]

/-- The step sequence when the replace raises and `_atomic_replace` falls
back to the non-atomic `shutil.copy2`, one transferred character at a
time. -/
def writeTextStepsCopyFallback (staged : PyStr) : List WriteStep :=
  .stageTemp staged :: ((List.range staged.length).map WriteStep.copyByte ++ [.cleanupTemp])

/-- An example pre-write file map: the target `"g"` holds `"old"`. -/
def mOld : FileMap := fun p => if p = "g".data then some "old".data else none

/-- C2 counterexample: the claimed crash-atomicity fails on two branches of
`_atomic_replace`.  On the Windows branch the crash point after
`os.remove(target)` but before the `shutil.move` rename observes the target
as absent — not byte-for-byte its pre-write value `"old"`; and under the
`shutil.copy2` fallback the crash point after one transferred character
observes the target holding `"n"`, which is neither the old `"old"` nor the
new `"new"` — a partial write. -/
theorem atomic_write_not_crash_safe :
    mOld "g".data = some "old".data ∧
    applyWriteSteps "t".data "g".data mOld ((writeTextStepsWindows "new".data).take 2)
      "g".data = none ∧
    (none : Option PyStr) ≠ some "old".data ∧
    applyWriteSteps "t".data "g".data mOld ((writeTextStepsCopyFallback "new".data).take 2)
      "g".data = some "n".data ∧
    some "n".data ≠ some "old".data ∧
    some "n".data ≠ some "new".data := by
  refine ⟨by decide, by decide, by decide, by decide, by decide, by decide⟩

/-- Folding copy steps touches only the target: the temporary file is
preserved. -/
theorem copySteps_temp_preserved (temp target : PyStr) (hne : temp ≠ target) (m : FileMap)
    (l : List Nat) :
    applyWriteSteps temp target m (l.map WriteStep.copyByte) temp = m temp := by
  induction l generalizing m with
  | nil => rfl
  | cons a l ih =>
    rw [show applyWriteSteps temp target m ((a :: l).map WriteStep.copyByte) =
      applyWriteSteps temp target (applyWriteStep temp target m (.copyByte a))
        (l.map WriteStep.copyByte) from rfl]
    rw [ih]
    simp [applyWriteStep, hne]

/-- After `i ≥ 1` transferred characters of a `copy2` whose source holds
`staged`, the target holds exactly the first `i` characters of `staged`. -/
theorem copySteps_target (temp target : PyStr) (hne : temp ≠ target) (m1 : FileMap)
    (staged : PyStr) (htemp : m1 temp = some staged) :
    ∀ i, 1 ≤ i →
      applyWriteSteps temp target m1 ((List.range i).map WriteStep.copyByte) target =
        some (staged.take i) := by
  intro i
  induction i with
  | zero => intro h; omega
  | succ n ih =>
    intro _
    have hT := copySteps_temp_preserved temp target hne m1 (List.range n)
    rw [List.range_succ, List.map_append]
    unfold applyWriteSteps
    rw [List.foldl_append]
    show applyWriteStep temp target
      (applyWriteSteps temp target m1 ((List.range n).map WriteStep.copyByte))
      (.copyByte n) target = some (staged.take (n + 1))
    rw [show applyWriteStep temp target
        (applyWriteSteps temp target m1 ((List.range n).map WriteStep.copyByte))
        (.copyByte n) target =
      some (((applyWriteSteps temp target m1 ((List.range n).map WriteStep.copyByte)
        temp).getD []).take (n + 1)) from by simp [applyWriteStep]]
    rw [hT, htemp]
    rfl

/-- C2 (amended): crash-atomicity holds branch by branch.  On the
atomic-rename branch (`os.replace`), every crash point strictly before the
rename leaves the target byte-for-byte unchanged (in particular the point
after staging and flushing), every point from the rename on shows the full
staged content, and no third state is ever observable.  On the Windows
delete-then-move branch the target is unchanged before the delete and
fully-new from the move on, but at the crash point between delete and move
it is observed as absent — changed, though still never holding partial
bytes.  Under the non-atomic `shutil.copy2` fallback, partial writes are
observable: after `i` transferred characters the target holds exactly the
first `i` characters of the staged content. -/
theorem atomic_write_branch_spec (temp target : PyStr) (m : FileMap) (staged : PyStr)
    (hne : temp ≠ target) :
    (∀ k, k < 2 →
      applyWriteSteps temp target m ((writeTextStepsPosix staged).take k) target = m target) ∧
    (∀ k, 2 ≤ k →
      applyWriteSteps temp target m ((writeTextStepsPosix staged).take k) target
        = some staged) ∧
    (∀ k, applyWriteSteps temp target m ((writeTextStepsPosix staged).take k) target
        = m target ∨
      applyWriteSteps temp target m ((writeTextStepsPosix staged).take k) target
        = some staged) ∧
    (∀ k, k < 2 →
      applyWriteSteps temp target m ((writeTextStepsWindows staged).take k) target
        = m target) ∧
    applyWriteSteps temp target m ((writeTextStepsWindows staged).take 2) target = none ∧
    (∀ k, 3 ≤ k →
      applyWriteSteps temp target m ((writeTextStepsWindows staged).take k) target
        = some staged) ∧
    (∀ k, applyWriteSteps temp target m ((writeTextStepsWindows staged).take k) target
        = m target ∨
      applyWriteSteps temp target m ((writeTextStepsWindows staged).take k) target = none ∨
      applyWriteSteps temp target m ((writeTextStepsWindows staged).take k) target
        = some staged) ∧
    (∀ i, 1 ≤ i → i ≤ staged.length →
      applyWriteSteps temp target m ((writeTextStepsCopyFallback staged).take (1 + i)) target
        = some (staged.take i)) := by
  have hnt : ¬(target = temp) := fun hx => hne hx.symm
  have h0 : applyWriteSteps temp target m [] target = m target := rfl
  have h1 : applyWriteSteps temp target m [.stageTemp staged] target = m target := by
    simp [applyWriteSteps, applyWriteStep, hnt]
  have h2 : applyWriteSteps temp target m [.stageTemp staged, .replaceStep] target
      = some staged := by
    simp [applyWriteSteps, applyWriteStep]
  have h3 : applyWriteSteps temp target m
      [.stageTemp staged, .replaceStep, .cleanupTemp] target = some staged := by
    simp [applyWriteSteps, applyWriteStep, hnt]
  have w2 : applyWriteSteps temp target m [.stageTemp staged, .removeTarget] target
      = none := by
    simp [applyWriteSteps, applyWriteStep]
  have w3 : applyWriteSteps temp target m [.stageTemp staged, .removeTarget, .moveStep]
      target = some staged := by
    simp [applyWriteSteps, applyWriteStep, hnt, hne]
  have w4 : applyWriteSteps temp target m
      [.stageTemp staged, .removeTarget, .moveStep, .cleanupTemp] target = some staged := by
    simp [applyWriteSteps, applyWriteStep, hnt, hne]
  have htakeP : ∀ n, (writeTextStepsPosix staged).take (n + 3) = writeTextStepsPosix staged := by
    intro n
    apply List.take_of_length_le
    simp [writeTextStepsPosix]
  have htakeW : ∀ n, (writeTextStepsWindows staged).take (n + 4)
      = writeTextStepsWindows staged := by
    intro n
    apply List.take_of_length_le
    simp [writeTextStepsWindows]
  refine ⟨?_, ?_, ?_, ?_, w2, ?_, ?_, ?_⟩
  · intro k hk
    interval_cases k
    · exact h0
    · exact h1
  · intro k hk
    match k, hk with
    | 2, _ => exact h2
    | (n + 3), _ =>
      rw [show (writeTextStepsPosix staged).take (n + 3) = writeTextStepsPosix staged
        from htakeP n]
      exact h3
  · intro k
    match k with
    | 0 => exact Or.inl h0
    | 1 => exact Or.inl h1
    | 2 => exact Or.inr h2
    | (n + 3) =>
      right
      rw [show (writeTextStepsPosix staged).take (n + 3) = writeTextStepsPosix staged
        from htakeP n]
      exact h3
  · intro k hk
    interval_cases k
    · exact h0
    · exact h1
  · intro k hk
    match k, hk with
    | 3, _ => exact w3
    | (n + 4), _ =>
      rw [show (writeTextStepsWindows staged).take (n + 4) = writeTextStepsWindows staged
        from htakeW n]
      exact w4
  · intro k
    match k with
    | 0 => exact Or.inl h0
    | 1 => exact Or.inl h1
    | 2 => exact Or.inr (Or.inl w2)
    | 3 => exact Or.inr (Or.inr w3)
    | (n + 4) =>
      right; right
      rw [show (writeTextStepsWindows staged).take (n + 4) = writeTextStepsWindows staged
        from htakeW n]
      exact w4
  · intro i h1i hle
    have htake : (writeTextStepsCopyFallback staged).take (1 + i) =
        .stageTemp staged :: (List.range i).map WriteStep.copyByte := by
      unfold writeTextStepsCopyFallback
      rw [show 1 + i = i + 1 from Nat.add_comm 1 i, List.take_succ_cons]
      congr 1
      rw [List.take_append_of_le_length (by simpa using hle), ← List.map_take,
        List.take_range, Nat.min_eq_left hle]
    rw [htake]
    rw [show applyWriteSteps temp target m
        (.stageTemp staged :: (List.range i).map WriteStep.copyByte) =
      applyWriteSteps temp target (applyWriteStep temp target m (.stageTemp staged))
        ((List.range i).map WriteStep.copyByte) from rfl]
    exact copySteps_target temp target hne _ staged (by simp [applyWriteStep]) i h1i

/-- Witness for `atomic_write_branch_spec` at concrete inputs: on the rename
branch a crash after staging leaves the target holding its old content, and
under the copy fallback a crash after one transferred character exposes the
one-character prefix of the new content. -/
theorem atomic_write_branch_spec_witness :
    applyWriteSteps "t".data "g".data mOld ((writeTextStepsPosix "new".data).take 1)
      "g".data = mOld "g".data ∧
    applyWriteSteps "t".data "g".data mOld ((writeTextStepsCopyFallback "new".data).take 2)
      "g".data = some ("new".data.take 1) :=
  ⟨(atomic_write_branch_spec "t".data "g".data mOld "new".data (by decide)).1 1 (by decide),
   (atomic_write_branch_spec "t".data "g".data mOld "new".data
      (by decide)).2.2.2.2.2.2.2 1 (by decide) (by decide)⟩
/-- C9: `read_document` is total by construction (it is a Lean function) and
degrades to the empty string on every failure path: invalid/inaccessible
path, missing file, zero-length file, or decode failure; a successful read
of a non-`.docx` file returns its decoded content. -/
theorem read_document_total_spec (fs : FS) (path : PyStr) :
    (fs.writable path = false → read_document fs path = []) ∧
    (fs.files path = none → read_document fs path = []) ∧
    (∀ f, fs.files path = some f → f.size = 0 → read_document fs path = []) ∧
    (∀ f, fs.files path = some f → extOf path ≠ ".docx".data → f.decodable = false →
      read_document fs path = []) ∧
    (∀ f, fs.writable path = true → fs.files path = some f → f.size ≠ 0 →
      extOf path ≠ ".docx".data → f.decodable = true →
      read_document fs path = f.content) := by
  refine ⟨?_, ?_, ?_, ?_, ?_⟩
  · intro hw
    unfold read_document
    rw [hw]
    simp
  · intro hn
    unfold read_document
    by_cases hw : fs.writable path = false
    · rw [hw]; simp
    · simp only [Bool.not_eq_false] at hw
      rw [hw, hn]
      simp
  · intro f hf hs
    exact read_document_size_zero fs path f hf hs
  · intro f hf hdocx hdec
    unfold read_document
    by_cases hw : fs.writable path = false
    · rw [hw]; simp
    · simp only [Bool.not_eq_false] at hw
      rw [hw, hf]
      by_cases hsz : f.size = 0
      · simp [hsz]
      · by_cases hx : extOf path = ".txt".data ∨ extOf path = ".md".data
        · simp [hsz, if_pos hx, read_text_file, hdec]
        · simp [hsz, if_neg hx, if_neg hdocx, read_text_file, hdec]
  · intro f hw hf hs hdocx hdec
    unfold read_document
    rw [hw, hf]
    by_cases hx : extOf path = ".txt".data ∨ extOf path = ".md".data
    · simp [hs, if_pos hx, read_text_file, hdec]
    · simp [hs, if_neg hx, if_neg hdocx, read_text_file, hdec]

/-- An example file system holding one non-empty decodable text file. -/
def fsW : FS :=
  { files := fun p => if p = p1 then some (mkTextFile "hi".data) else none,
    writable := fun _ => true }

/-- Witness for `read_document_total_spec` at a concrete input. -/
theorem read_document_total_spec_witness :
    read_document fsW p1 = (mkTextFile "hi".data).content :=
  (read_document_total_spec fsW p1).2.2.2.2 (mkTextFile "hi".data) rfl (by decide)
    (by decide) (by decide) rfl

/-! ### Generation client transport with retry (`APIService._send_request`) -/

/-- The observable outcome of one HTTP POST attempt: a 2xx response whose
JSON body is abstracted as an id, an HTTP error status raised by
`raise_for_status`, a `requests.exceptions.Timeout`, or any other
`requests.exceptions.RequestException` (network error). -/
inductive AttemptOutcome
  | ok (resp : Nat)
  | http (status : Nat)
  | timeout
  | netErr
deriving DecidableEq

/-- The terminal result of `_send_request`: the parsed JSON on success, the
`ValueError` raised on a 401 (authentication failure), the re-raised
`HTTPError` on any other status, or the final `Exception` after
`MAX_RETRIES` is reached. -/
inductive RequestResult
  | success (resp : Nat)
  | authError
  | httpError (status : Nat)
  | exhausted
deriving DecidableEq

def MAX_RETRIES : Nat := 3

def RETRY_DELAY : ℚ := 2

def RETRY_BACKOFF : ℚ := 3 / 2

/-- The body of `_send_request`'s `while retry_count < self.MAX_RETRIES`
loop, with the guard expressed as the structurally decreasing fuel
`MAX_RETRIES - retry_count` (each retryable failure increments
`retry_count` by one).  Returns the terminal result together with the list
of back-off sleeps `delay * RETRY_BACKOFF ** (retry_count - 1)` (computed
after the increment) in the order they are executed. -/
def send_request_loop (o : Nat → AttemptOutcome) : Nat → Nat → RequestResult × List ℚ
  | 0, _ => (.exhausted, [])
  | fuel + 1, retryCount =>
    match o retryCount with
    | .ok r => (.success r, [])
    | .http s =>
      if s = 401 then (.authError, [])
      else if s = 429 then
        let rest := send_request_loop o fuel (retryCount + 1)
        (rest.1, RETRY_DELAY * RETRY_BACKOFF ^ retryCount :: rest.2)
      else (.httpError s, [])
    | .timeout =>
      let rest := send_request_loop o fuel (retryCount + 1)
      (rest.1, RETRY_DELAY * RETRY_BACKOFF ^ retryCount :: rest.2)
    | .netErr =>
      let rest := send_request_loop o fuel (retryCount + 1)
      (rest.1, RETRY_DELAY * RETRY_BACKOFF ^ retryCount :: rest.2)

/-- `_send_request`'s loop entered with `retry_count = k`. -/
def send_request_from (o : Nat → AttemptOutcome) (k : Nat) : RequestResult × List ℚ :=
  send_request_loop o (MAX_RETRIES - k) k

/-- `APIService._send_request`: the loop entered with `retry_count = 0`. -/
def send_request (o : Nat → AttemptOutcome) : RequestResult × List ℚ :=
  send_request_from o 0

theorem send_request_from_ok (o : Nat → AttemptOutcome) (k r : Nat)
    (hk : k < MAX_RETRIES) (h : o k = .ok r) :
    send_request_from o k = (.success r, []) := by
  unfold send_request_from
  obtain ⟨n, hn⟩ : ∃ n, MAX_RETRIES - k = n + 1 := ⟨MAX_RETRIES - k - 1, by omega⟩
  rw [hn]
  simp [send_request_loop, h]

theorem send_request_from_auth (o : Nat → AttemptOutcome) (k : Nat)
    (hk : k < MAX_RETRIES) (h : o k = .http 401) :
    send_request_from o k = (.authError, []) := by
  unfold send_request_from
  obtain ⟨n, hn⟩ : ∃ n, MAX_RETRIES - k = n + 1 := ⟨MAX_RETRIES - k - 1, by omega⟩
  rw [hn]
  simp [send_request_loop, h]

theorem send_request_from_retry (o : Nat → AttemptOutcome) (k : Nat)
    (hk : k < MAX_RETRIES)
    (h : o k = .http 429 ∨ o k = .timeout ∨ o k = .netErr) :
    send_request_from o k = ((send_request_from o (k + 1)).1,
      RETRY_DELAY * RETRY_BACKOFF ^ k :: (send_request_from o (k + 1)).2) := by
  unfold send_request_from
  obtain ⟨n, hn⟩ : ∃ n, MAX_RETRIES - k = n + 1 := ⟨MAX_RETRIES - k - 1, by omega⟩
  have hn2 : MAX_RETRIES - (k + 1) = n := by omega
  rw [hn, hn2]
  rcases h with h | h | h <;> simp [send_request_loop, h]

theorem send_request_from_httpOther (o : Nat → AttemptOutcome) (k s : Nat)
    (hk : k < MAX_RETRIES) (h : o k = .http s) (h1 : s ≠ 401) (h2 : s ≠ 429) :
    send_request_from o k = (.httpError s, []) := by
  unfold send_request_from
  obtain ⟨n, hn⟩ : ∃ n, MAX_RETRIES - k = n + 1 := ⟨MAX_RETRIES - k - 1, by omega⟩
  rw [hn]
  simp [send_request_loop, h, h1, h2]

theorem send_request_from_exhausted (o : Nat → AttemptOutcome) :
    send_request_from o MAX_RETRIES = (.exhausted, []) := by
  unfold send_request_from
  rw [show MAX_RETRIES - MAX_RETRIES = 0 from by omega]
  simp [send_request_loop]

/-- The loop performs at most `fuel` back-off sleeps. -/
theorem send_request_loop_delays_length (o : Nat → AttemptOutcome) :
    ∀ fuel k, (send_request_loop o fuel k).2.length ≤ fuel := by
  intro fuel
  induction fuel with
  | zero => intro k; simp [send_request_loop]
  | succ n ih =>
    intro k
    cases ho : o k with
    | ok r => simp [send_request_loop, ho]
    | http s =>
      by_cases h1 : s = 401
      · simp [send_request_loop, ho, h1]
      · by_cases h2 : s = 429
        · subst h2
          have hstep : send_request_loop o (n + 1) k =
              ((send_request_loop o n (k + 1)).1,
                RETRY_DELAY * RETRY_BACKOFF ^ k :: (send_request_loop o n (k + 1)).2) := by
            simp [send_request_loop, ho]
          rw [hstep]
          simpa using Nat.succ_le_succ (ih (k + 1))
        · simp [send_request_loop, ho, h1, h2]
    | timeout =>
      have hstep : send_request_loop o (n + 1) k =
          ((send_request_loop o n (k + 1)).1,
            RETRY_DELAY * RETRY_BACKOFF ^ k :: (send_request_loop o n (k + 1)).2) := by
        simp [send_request_loop, ho]
      rw [hstep]
      simpa using Nat.succ_le_succ (ih (k + 1))
    | netErr =>
      have hstep : send_request_loop o (n + 1) k =
          ((send_request_loop o n (k + 1)).1,
            RETRY_DELAY * RETRY_BACKOFF ^ k :: (send_request_loop o n (k + 1)).2) := by
        simp [send_request_loop, ho]
      rw [hstep]
      simpa using Nat.succ_le_succ (ih (k + 1))

/-- C3: the transport retry policy of `_send_request`.  A 401 at any reached
attempt fails immediately as an authentication error with no further sleep;
a 429, timeout or network error at attempt `k+1` (0-based `k`) sleeps
exactly `RETRY_DELAY * RETRY_BACKOFF ^ k` seconds and re-enters the loop;
any other HTTP error status fails immediately with no retry; entering the
loop with `retry_count = MAX_RETRIES` raises the terminal retry-exhaustion
error; at most `MAX_RETRIES` sleeps (hence at most 3 total attempts) ever
happen; and a permanently rate-limited provider exhausts all 3 attempts
with sleeps of exactly 2, 3 and 4.5 seconds. -/
theorem retry_policy_spec :
    (∀ o k, k < MAX_RETRIES → o k = .http 401 →
      send_request_from o k = (.authError, [])) ∧
    (∀ o k, k < MAX_RETRIES → (o k = .http 429 ∨ o k = .timeout ∨ o k = .netErr) →
      send_request_from o k = ((send_request_from o (k + 1)).1,
        RETRY_DELAY * RETRY_BACKOFF ^ k :: (send_request_from o (k + 1)).2)) ∧
    (∀ o k s, k < MAX_RETRIES → o k = .http s → s ≠ 401 → s ≠ 429 →
      send_request_from o k = (.httpError s, [])) ∧
    (∀ o, send_request_from o MAX_RETRIES = (.exhausted, [])) ∧
    (∀ o k, (send_request_from o k).2.length ≤ MAX_RETRIES - k) ∧
    send_request (fun _ => .http 429) = (.exhausted, [2, 3, 9 / 2]) := by
  refine ⟨?_, ?_, ?_, ?_, ?_, ?_⟩
  · intro o k hk h
    exact send_request_from_auth o k hk h
  · intro o k hk h
    exact send_request_from_retry o k hk h
  · intro o k s hk h h1 h2
    exact send_request_from_httpOther o k s hk h h1 h2
  · intro o
    exact send_request_from_exhausted o
  · intro o k
    exact send_request_loop_delays_length o (MAX_RETRIES - k) k
  · rw [show send_request (fun _ => .http 429) = send_request_from (fun _ => .http 429) 0
      from rfl]
    rw [send_request_from_retry _ 0 (by decide) (Or.inl rfl)]
    rw [send_request_from_retry _ 1 (by decide) (Or.inl rfl)]
    rw [send_request_from_retry _ 2 (by decide) (Or.inl rfl)]
    rw [show ((2 : ℕ) + 1) = MAX_RETRIES from rfl, send_request_from_exhausted]
    norm_num [RETRY_DELAY, RETRY_BACKOFF]

/-- Witness for `retry_policy_spec` at concrete inputs: a 401 on the first
attempt fails with the authentication error and zero sleeps. -/
theorem retry_policy_spec_witness :
    send_request_from (fun _ => .http 401) 0 = (.authError, []) :=
  retry_policy_spec.1 (fun _ => .http 401) 0 (by decide) rfl

/-! ### Prompt construction (`APIService._construct_prompt`) -/

def MAX_DOC_LENGTH : Nat := 4000

/-- The elision marker inserted between the head and tail windows
(`"\n...[内容过长，已省略部分]...\n"`, 20 characters). -/
def ELISION_MARKER : PyStr := "\n...[内容过长，已省略部分]...\n".data

/-- The context-length management step of `_construct_prompt`: content
longer than `MAX_DOC_LENGTH` is replaced by its first `MAX_DOC_LENGTH / 2`
characters, the elision marker, and its last `MAX_DOC_LENGTH / 2`
characters; shorter content passes through unchanged. -/
def truncateDocumentContent (dc : PyStr) : PyStr :=
  if MAX_DOC_LENGTH < dc.length then
    dc.take (MAX_DOC_LENGTH / 2) ++ ELISION_MARKER ++ dc.drop (dc.length - MAX_DOC_LENGTH / 2)
  else dc

/-- C6 counterexample: a 9000-character document truncates to 4020
characters (head 2000 ++ 20-character marker ++ tail 2000), not to the
configured maximum of 4000 as claimed. -/
theorem truncation_total_length_counterexample :
    (truncateDocumentContent (List.replicate 9000 'a')).length = 4020 ∧
    (4020 : Nat) ≠ 4000 := by
  constructor
  · have hm : ELISION_MARKER.length = 20 := by decide
    have hc : MAX_DOC_LENGTH < (List.replicate 9000 'a').length := by
      rw [List.length_replicate]
      norm_num [MAX_DOC_LENGTH]
    unfold truncateDocumentContent
    rw [if_pos hc]
    simp only [List.length_append, List.length_take, List.length_drop, hm,
      List.length_replicate, MAX_DOC_LENGTH]
    norm_num
  · decide

/-- C6 (amended): content of at most `MAX_DOC_LENGTH` characters passes
through unchanged; longer content becomes head ++ marker ++ tail with the
first 2000 characters unchanged, the last 2000 characters unchanged, and a
total length of `MAX_DOC_LENGTH` plus the 20-character marker (4020), not
`MAX_DOC_LENGTH` itself. -/
theorem truncation_spec (dc : PyStr) :
    (dc.length ≤ MAX_DOC_LENGTH → truncateDocumentContent dc = dc) ∧
    (MAX_DOC_LENGTH < dc.length →
      (truncateDocumentContent dc).length = MAX_DOC_LENGTH + ELISION_MARKER.length ∧
      (truncateDocumentContent dc).take 2000 = dc.take 2000 ∧
      (truncateDocumentContent dc).drop ((truncateDocumentContent dc).length - 2000) =
        dc.drop (dc.length - 2000)) := by
  constructor
  · intro hle
    unfold truncateDocumentContent
    rw [if_neg (by omega)]
  · intro hgt
    have hgt' : 4000 < dc.length := hgt
    have h2000 : MAX_DOC_LENGTH / 2 = 2000 := by norm_num [MAX_DOC_LENGTH]
    have hm : ELISION_MARKER.length = 20 := by decide
    have htrunc : truncateDocumentContent dc =
        dc.take 2000 ++ ELISION_MARKER ++ dc.drop (dc.length - 2000) := by
      unfold truncateDocumentContent
      rw [if_pos hgt, h2000]
    have hlen : (dc.take 2000).length = 2000 := by
      rw [List.length_take]
      omega
    have hL : (truncateDocumentContent dc).length = MAX_DOC_LENGTH + ELISION_MARKER.length := by
      rw [htrunc]
      simp only [List.length_append, hlen, hm, List.length_drop, MAX_DOC_LENGTH]
      omega
    refine ⟨hL, ?_, ?_⟩
    · rw [htrunc, List.append_assoc, List.take_append_of_le_length (by rw [hlen])]
      simp [List.take_take]
    · have hamount : (truncateDocumentContent dc).length - 2000 =
          (dc.take 2000 ++ ELISION_MARKER).length := by
        rw [hL]
        simp only [List.length_append, hlen, hm]
        norm_num [MAX_DOC_LENGTH]
      rw [hamount, htrunc, List.drop_left]

/-- Witness for `truncation_spec` at concrete inputs: a 4000-character
document passes through unchanged, and the head window of a 4001-character
document is preserved. -/
theorem truncation_spec_witness :
    truncateDocumentContent (List.replicate 4000 'a') = List.replicate 4000 'a' ∧
    (truncateDocumentContent (List.replicate 4001 'a')).take 2000 =
      (List.replicate 4001 'a').take 2000 :=
  ⟨(truncation_spec (List.replicate 4000 'a')).1
      (by rw [List.length_replicate]; norm_num [MAX_DOC_LENGTH]),
   ((truncation_spec (List.replicate 4001 'a')).2
      (by rw [List.length_replicate]; norm_num [MAX_DOC_LENGTH])).2.1⟩

/-! ### Content cleaning (`APIService._clean_generated_content`) -/

/-- The fixed `remove_patterns` list: template-boundary phrases whose
occurrence anywhere in a stripped line removes that line. -/
def REMOVE_PATTERNS : List PyStr :=
  ["### 选中文本".data, "### 文档内容".data, "### 主题要求".data,
   "选中文本（需要重点关注）".data, "文档内容（需要整体考虑）".data,
   "主题要求（如有）".data, "你是一个专业的文本优化助手".data,
   "请生成完整的重写后文档内容".data, "不要输出任何多余的解释说明".data]

/-- Python `pat in s`: `pat` occurs as a contiguous substring of `s`. -/
def hasSubstr (pat : PyStr) : PyStr → Bool
  | [] => pat.isEmpty
  | c :: rest => pat.isPrefixOf (c :: rest) || hasSubstr pat rest

/-- The per-line filter of `_clean_generated_content`: a line is dropped
when its stripped form starts with a fenced-code delimiter, contains one of
the boundary phrases, starts with the (second-level) heading marker
`"## "`, or is an enumerated instruction item: it starts with an (ASCII)
digit, contains a `'.'`, and its text before the first `'.'` is a non-empty
run of digits (`parts[0].isdigit()` after `split('.', 1)`). -/
def shouldSkipLine (line : PyStr) : Bool :=
  let s := pyStrip line
  "```".data.isPrefixOf s ||
  REMOVE_PATTERNS.any (fun pat => hasSubstr pat s) ||
  "## ".data.isPrefixOf s ||
  (match s with
   | [] => false
   | c :: _ =>
     c.isDigit && s.contains '.' &&
       (let pref := s.takeWhile (fun ch => ch != '.')
        !pref.isEmpty && pref.all Char.isDigit))

/-- The lines kept by the cleaning filter: the stripped content is split on
`'\n'` and the lines triggering `shouldSkipLine` are removed. -/
def keptLines (content : PyStr) : List PyStr :=
  ((pyStrip content).splitOn '\n').filter (fun l => !shouldSkipLine l)

/-- One iteration of the `while '\n\n\n' in cleaned_content` loop, fused
with its guard: one scan replaces every leftmost non-overlapping occurrence
of three newlines by two (Python `str.replace`), and the second component
records whether any occurrence was found (the loop guard). -/
def collapsePass : PyStr → PyStr × Bool
  | '\n' :: '\n' :: '\n' :: rest =>
    let r := collapsePass rest
    ('\n' :: '\n' :: r.1, true)
  | c :: rest =>
    let r := collapsePass rest
    (c :: r.1, r.2)
  | [] => ([], false)

/-- Whether `'\n\n\n'` occurs in the string (the loop guard). -/
def containsTripleNewline (s : PyStr) : Bool := (collapsePass s).2

theorem collapsePass_length_le (s : PyStr) : (collapsePass s).1.length ≤ s.length := by
  induction s using collapsePass.induct with
  | case1 rest ih => simp_all [collapsePass]; omega
  | case2 c rest ih => simp_all [collapsePass]
  | case3 => simp [collapsePass]

theorem collapsePass_length_lt (s : PyStr) (h : (collapsePass s).2 = true) :
    (collapsePass s).1.length < s.length := by
  induction s using collapsePass.induct with
  | case1 rest ih =>
    have := collapsePass_length_le rest
    simp_all [collapsePass]
    omega
  | case2 c rest ih => simp_all [collapsePass]
  | case3 => simp [collapsePass] at h

/-- The replace loop, with the iteration count bounded by a fuel value:
each pass that finds an occurrence strictly shortens the string, so
`s.length` iterations always suffice. -/
def collapseLoop : Nat → PyStr → PyStr
  | 0, s => s
  | fuel + 1, s =>
    if (collapsePass s).2 = true then collapseLoop fuel (collapsePass s).1 else s

/-- The full `while '\n\n\n' in ...: ... replace ...` loop. -/
def collapseNewlines (s : PyStr) : PyStr := collapseLoop s.length s

theorem collapseLoop_no_triple (fuel : Nat) :
    ∀ s : PyStr, s.length ≤ fuel → containsTripleNewline (collapseLoop fuel s) = false := by
  induction fuel with
  | zero =>
    intro s hs
    have : s = [] := List.length_eq_zero.mp (Nat.le_zero.mp hs)
    subst this
    rfl
  | succ n ih =>
    intro s hs
    unfold collapseLoop
    by_cases hp : (collapsePass s).2 = true
    · rw [if_pos hp]
      exact ih _ (by have := collapsePass_length_lt s hp; omega)
    · rw [if_neg hp]
      simpa [containsTripleNewline] using hp

/-- `APIService._clean_generated_content`: strip, split into lines, filter,
re-join with `'\n'`, strip, and collapse runs of three or more newlines. -/
def clean_generated_content (content : PyStr) : PyStr :=
  collapseNewlines (pyStrip (List.intercalate ['\n'] (keptLines content)))

/-- C7 counterexample: a line beginning with the markdown heading marker
`'#'` (a first-level heading) is NOT removed — the filter only removes
lines starting with `"## "` — so the claim that heading-marker lines are
removed fails on `"# Title"`, which survives cleaning unchanged. -/
theorem heading_line_not_removed :
    clean_generated_content "# Title".data = "# Title".data ∧
    "#".data.isPrefixOf (pyStrip "# Title".data) = true := by
  exact ⟨by decide, by decide⟩

/-- C7 (amended): the cleaning filter removes fenced-code delimiter lines,
boundary-phrase lines, lines starting with the second-level heading marker
`"## "` (other heading levels survive unless caught by a boundary phrase),
and digit-dot enumerated items; afterwards no three consecutive newlines
remain.  Every kept line fails every removal trigger, and the function is a
pure Lean function (deterministic by construction).  The spec's concrete
scenario holds: a fence, a boundary phrase and four consecutive newlines
are reduced to exactly one blank line between the surviving lines. -/
theorem clean_content_spec (content : PyStr) :
    containsTripleNewline (clean_generated_content content) = false ∧
    (∀ l ∈ keptLines content, shouldSkipLine l = false) ∧
    clean_generated_content "real\n```\n### 选中文本\n\n\n\ntext".data =
      "real\n\ntext".data := by
  refine ⟨?_, ?_, by decide⟩
  · exact collapseLoop_no_triple _ _ le_rfl
  · intro l hl
    simpa using (List.mem_filter.mp hl).2

/-- Witness for `clean_content_spec` at a concrete input: the line `"a"`
is kept and indeed triggers no removal rule. -/
theorem clean_content_spec_witness :
    containsTripleNewline (clean_generated_content "a\n```".data) = false ∧
    shouldSkipLine "a".data = false :=
  ⟨(clean_content_spec "a\n```".data).1,
   (clean_content_spec "a\n```".data).2.1 "a".data (by decide)⟩

/-! ### Trigger handling and the processing flag
(`TextMonitorService._handle_selection_enter`) -/

/-- The exit paths of `_handle_selection_enter`'s body: success, the two
early returns (no selected text; no configured document path), or an
exception caught by the handler's `except` block. -/
inductive PipelineOutcome
  | success
  | noSelectedText
  | noDocumentPath
  | exception
deriving DecidableEq

/-- The interleaving-relevant events of the handler: `trigger` is a
confirmed trigger reaching the `is_processing` check, and `finish o` is the
completion of the in-flight run through exit path `o` (whose `finally`
block resets the flag). -/
inductive OrchestratorEvent
  | trigger
  | finish (o : PipelineOutcome)

/-- The `is_processing` flag together with ghost counters: runs in flight,
runs started, and triggers dropped. -/
structure OrchestratorState where
  isProcessing : Bool
  inFlight : Nat
  runs : Nat
  dropped : Nat
deriving DecidableEq

def orchestratorInit : OrchestratorState :=
  { isProcessing := false, inFlight := 0, runs := 0, dropped := 0 }

/-- One event step, from the handler: a trigger while `is_processing` is
dropped and logged, never queued; otherwise the flag is set (under the
lock) and a run starts; a finish resets the flag whatever the exit path
(the `finally` block). -/
def orchestratorStep (s : OrchestratorState) : OrchestratorEvent → OrchestratorState
  | .trigger =>
    if s.isProcessing then { s with dropped := s.dropped + 1 }
    else { s with isProcessing := true, inFlight := s.inFlight + 1, runs := s.runs + 1 }
  | .finish _ => { s with isProcessing := false, inFlight := s.inFlight - 1 }

def orchestratorRun (s : OrchestratorState) (es : List OrchestratorEvent) :
    OrchestratorState :=
  es.foldl orchestratorStep s

def isTriggerEvent : OrchestratorEvent → Bool
  | .trigger => true
  | .finish _ => false

theorem orchestratorRun_invariant (es : List OrchestratorEvent) :
    ∀ s : OrchestratorState,
      (s.isProcessing = true ↔ s.inFlight = 1) → s.inFlight ≤ 1 →
      ((orchestratorRun s es).isProcessing = true ↔ (orchestratorRun s es).inFlight = 1) ∧
      (orchestratorRun s es).inFlight ≤ 1 ∧
      (orchestratorRun s es).runs + (orchestratorRun s es).dropped =
        s.runs + s.dropped + es.countP isTriggerEvent := by
  induction es with
  | nil =>
    intro s h1 h2
    exact ⟨h1, h2, by simp [orchestratorRun]⟩
  | cons e es ih =>
    intro s h1 h2
    rw [show orchestratorRun s (e :: es) = orchestratorRun (orchestratorStep s e) es from rfl]
    cases e with
    | trigger =>
      by_cases hp : s.isProcessing = true
      · have hstep : orchestratorStep s .trigger = { s with dropped := s.dropped + 1 } := by
          simp [orchestratorStep, hp]
        rw [hstep]
        obtain ⟨a, b, c⟩ := ih { s with dropped := s.dropped + 1 } h1 h2
        refine ⟨a, b, ?_⟩
        rw [c]
        simp [List.countP_cons, isTriggerEvent]
        omega
      · have hp0 : s.isProcessing = false := by simpa using hp
        have hin0 : s.inFlight = 0 := by
          rcases Nat.lt_or_ge s.inFlight 1 with h | h
          · omega
          · exfalso
            have : s.inFlight = 1 := by omega
            rw [hp0] at h1
            simp [this] at h1
        have hstep : orchestratorStep s .trigger =
            { s with isProcessing := true, inFlight := s.inFlight + 1,
                     runs := s.runs + 1 } := by
          simp [orchestratorStep, hp0]
        rw [hstep]
        obtain ⟨a, b, c⟩ := ih
          { s with isProcessing := true, inFlight := s.inFlight + 1, runs := s.runs + 1 }
          (by simp [hin0]) (by simp [hin0])
        refine ⟨a, b, ?_⟩
        rw [c]
        simp [List.countP_cons, isTriggerEvent]
        omega
    | finish o =>
      have hstep : orchestratorStep s (.finish o) =
          { s with isProcessing := false, inFlight := s.inFlight - 1 } := rfl
      rw [hstep]
      obtain ⟨a, b, c⟩ := ih { s with isProcessing := false, inFlight := s.inFlight - 1 }
        (by simp; omega) (by simp; omega)
      refine ⟨a, b, ?_⟩
      rw [c]
      simp [List.countP_cons, isTriggerEvent]

/-- C4: over every event sequence from the initial state, at most one
pipeline run is in flight (`in_flight ≤ 1`, and the `is_processing` flag is
set exactly while one is); every confirmed trigger is either a started run
or a dropped one (none is queued); the flag is false after every exit path
of the handler; and a trigger arriving while the flag is set changes
nothing but the dropped counter. -/
theorem single_flight_spec (es : List OrchestratorEvent) :
    (orchestratorRun orchestratorInit es).inFlight ≤ 1 ∧
    ((orchestratorRun orchestratorInit es).isProcessing = true ↔
      (orchestratorRun orchestratorInit es).inFlight = 1) ∧
    (orchestratorRun orchestratorInit es).runs +
      (orchestratorRun orchestratorInit es).dropped = es.countP isTriggerEvent ∧
    (∀ s : OrchestratorState, ∀ o : PipelineOutcome,
      (orchestratorStep s (.finish o)).isProcessing = false) ∧
    (∀ s : OrchestratorState, s.isProcessing = true →
      orchestratorStep s .trigger = { s with dropped := s.dropped + 1 }) := by
  obtain ⟨a, b, c⟩ := orchestratorRun_invariant es orchestratorInit (by simp [orchestratorInit])
    (by simp [orchestratorInit])
  refine ⟨b, a, by simpa [orchestratorInit] using c, fun s o => rfl, fun s hs => ?_⟩
  simp [orchestratorStep, hs]

/-- Witness for `single_flight_spec` at a concrete input: a trigger
arriving while a run is in flight only increments the dropped counter. -/
theorem single_flight_spec_witness :
    orchestratorStep { isProcessing := true, inFlight := 1, runs := 1, dropped := 0 }
      .trigger = { isProcessing := true, inFlight := 1, runs := 1, dropped := 1 } :=
  (single_flight_spec []).2.2.2.2
    { isProcessing := true, inFlight := 1, runs := 1, dropped := 0 } rfl

/-! ### Selection / scroll / Enter event handling (`TextMonitorService`) -/

/-- The monitor state relevant to triggering: `is_selecting` (written by the
click and scroll handlers, read by no handler), `last_select_time` (set on
left-button release), and the `is_processing` debounce flag. -/
structure MonitorState where
  isSelecting : Bool
  lastSelectTime : ℚ
  isProcessing : Bool
deriving DecidableEq

def monitorInit : MonitorState :=
  { isSelecting := false, lastSelectTime := 0, isProcessing := false }

/-- A global input event at time `t` (seconds): a mouse click (`left`
distinguishes the primary button, `pressed` press vs release), a scroll, or
an Enter key press. -/
inductive MonitorEvent
  | mouseClick (left pressed : Bool) (t : ℚ)
  | mouseScroll (t : ℚ)
  | keyEnter (t : ℚ)

/-- `_on_mouse_click`: non-left buttons are ignored; a left press sets
`is_selecting`; a left release clears it and records the release time. -/
def on_mouse_click (s : MonitorState) (left pressed : Bool) (t : ℚ) : MonitorState :=
  if left = false then s
  else if pressed then { s with isSelecting := true }
  else { s with isSelecting := false, lastSelectTime := t }

/-- `_on_mouse_scroll`: clears `is_selecting` (and nothing else). -/
def on_mouse_scroll (s : MonitorState) : MonitorState :=
  { s with isSelecting := false }

/-- `_on_key_press` for the Enter key: it calls `_handle_selection_enter`
exactly when `0 < t - last_select_time < 2`; the handler drops the trigger
when `is_processing` is set and otherwise runs the pipeline to completion
(its `finally` block restores `is_processing = false` before the next
event).  Returns the new state and whether a pipeline run happened. -/
def on_key_press_enter (s : MonitorState) (t : ℚ) : MonitorState × Bool :=
  if 0 < t - s.lastSelectTime ∧ t - s.lastSelectTime < 2 then
    (if s.isProcessing then (s, false) else (s, true))
  else (s, false)

def monitorStep (s : MonitorState) : MonitorEvent → MonitorState × Bool
  | .mouseClick left pressed t => (on_mouse_click s left pressed t, false)
  | .mouseScroll _ => (on_mouse_scroll s, false)
  | .keyEnter t => on_key_press_enter s t

/-- The number of pipeline runs fired over an event trace. -/
def monitorRunCount (s : MonitorState) : List MonitorEvent → Nat
  | [] => 0
  | e :: es =>
    (if (monitorStep s e).2 then 1 else 0) + monitorRunCount (monitorStep s e).1 es

/-- C8 fails on the code: in the trace "left press at 0, scroll at 0 (while
the selection is in progress), left release at 1, Enter at 2" the scroll
clears `is_selecting`, but `_on_key_press` consults only the time elapsed
since the last left-button release — `is_selecting` is never read by any
handler — so the Enter (1 second after the release, inside the 2-second
window) still fires the pipeline: one run happens where the claim requires
zero. -/
theorem scroll_does_not_cancel_trigger :
    monitorRunCount monitorInit
      [.mouseClick true true 0, .mouseScroll 0, .mouseClick true false 1, .keyEnter 2]
      = 1 := by
  norm_num [monitorRunCount, monitorStep, on_mouse_click, on_mouse_scroll,
    on_key_press_enter, monitorInit]

/-! ### Write-mode wiring (orchestrator call into `generate_content`) -/

/-- The three prompt templates of `api.py` (`REWRITE_PROMPT_TEMPLATE`,
`INCREMENTAL_PROMPT_TEMPLATE`, `CURSOR_PROMPT_TEMPLATE`), identified by
which one is selected; their fixed literal text takes no part in the
claims. -/
inductive PromptTemplate
  | rewrite
  | incremental
  | cursor
deriving DecidableEq

/-- The template-selection branch of `_construct_prompt`: `"overwrite"`
selects the rewrite template, `"cursor"` the cursor template, and any other
value (the `else  # incremental` branch) the incremental template. -/
def chooseTemplate (writeMode : PyStr) : PromptTemplate :=
  if writeMode = "overwrite".data then .rewrite
  else if writeMode = "cursor".data then .cursor
  else .incremental

/-- The default theme substituted when the user theme is blank. -/
def DEFAULT_THEME : PyStr := "无特定主题要求，请保持原文档的专业风格和内容方向".data

/-- `APIService._construct_prompt`, abstracted to the data substituted into
the fixed template text (the substitution itself, three distinct
placeholder replacements, is injective in these components): the selected
template, the truncated document content, the effective theme, and the
selected text. -/
def construct_prompt (selectedText documentContent themePrompt writeMode : PyStr) :
    PromptTemplate × PyStr × PyStr × PyStr :=
  (chooseTemplate writeMode,
   truncateDocumentContent documentContent,
   if pyStrip themePrompt = [] then DEFAULT_THEME else themePrompt,
   selectedText)

/-- `APIService.generate_content`'s prompt construction, with the Python
default parameter `write_mode: str = "incremental"`. -/
def generate_content_prompt (selectedText documentContent themePrompt : PyStr)
    (writeMode : PyStr := "incremental".data) :
    PromptTemplate × PyStr × PyStr × PyStr :=
  construct_prompt selectedText documentContent themePrompt writeMode

/-- The slice of `_handle_selection_enter` the claim is about: the
generation call passes selected text, document content and theme but no
write-mode argument (the Python default applies), and the document write
uses `incremental = (write_mode == 'incremental')` from the config. -/
def pipeline_call (configWriteMode selectedText documentContent themePrompt : PyStr) :
    (PromptTemplate × PyStr × PyStr × PyStr) × Bool :=
  (generate_content_prompt selectedText documentContent themePrompt,
   decide (configWriteMode = "incremental".data))

/-- C10: for every configured write mode the orchestrator's generation call
builds its prompt from the Incremental template (no write-mode argument is
passed, so the `"incremental"` default applies); the configured mode
affects only the document-write step, which is incremental exactly for
`"incremental"` — both `"overwrite"` and `"cursor"` yield a full overwrite
— even though `_construct_prompt` would have selected the rewrite or cursor
template had the mode been forwarded. -/
theorem write_mode_only_affects_write_step (cfg sel doc theme : PyStr) :
    (pipeline_call cfg sel doc theme).1.1 = PromptTemplate.incremental ∧
    ((pipeline_call cfg sel doc theme).2 = true ↔ cfg = "incremental".data) ∧
    (pipeline_call "cursor".data sel doc theme).2 = false ∧
    (pipeline_call "overwrite".data sel doc theme).2 = false ∧
    chooseTemplate "overwrite".data = PromptTemplate.rewrite ∧
    chooseTemplate "cursor".data = PromptTemplate.cursor := by
  refine ⟨?_, ?_, ?_, ?_, by decide, by decide⟩
  · show chooseTemplate "incremental".data = PromptTemplate.incremental
    decide
  · simp [pipeline_call]
  · show decide ("cursor".data = "incremental".data) = false
    decide
  · show decide ("overwrite".data = "incremental".data) = false
    decide
